import Mathlib

/-!
Verification development for the query/presentation core of the `jj`
version-control tool (repository `lukegb/jj`): configuration loading
(`src/config.rs`), and the log/print command surface (revset filtering,
graph layout, diff/status generation, conflict materialization) whose
behaviour is pinned by `tests/test_log_command.rs` and
`tests/test_print_command.rs`.
-/

set_option autoImplicit false

namespace JJ

/-! ## Embedding of `src/config.rs` -/

/-- Wrapper to reject an array without command name
(`NonEmptyCommandArgsVec` in `config.rs`): a list of strings together
with a proof that it is non-empty. -/
def NonEmptyCommandArgsVec := { l : List String // l ≠ [] }

/-- `TryFrom<Vec<String>> for NonEmptyCommandArgsVec`: rejects the empty
vector with the error string used in `config.rs`. -/
def NonEmptyCommandArgsVec.tryFrom (args : List String) :
    Except String NonEmptyCommandArgsVec :=
  if h : args = [] then .error "command arguments should not be empty"
  else .ok ⟨args, h⟩

/-- `FullCommandArgs` from `config.rs`: either a whole command-line string
or a non-empty argument vector. -/
inductive FullCommandArgs where
  | str (s : String)
  | vec (a : NonEmptyCommandArgsVec)

/-- Rust's `s.split(' ')` on the character sequence: splitting on every
space character; the empty sequence yields one empty piece, `n` spaces
yield `n+1` pieces. -/
def splitSpacesList : List Char → List (List Char)
  | [] => [[]]
  | c :: cs =>
    if c = ' ' then [] :: splitSpacesList cs
    else
      match splitSpacesList cs with
      | [] => [[c]]
      | w :: ws => (c :: w) :: ws

/-- `s.split(' ').map(to_owned).collect()` from `FullCommandArgs::args`. -/
def splitSpaces (s : String) : List String :=
  (splitSpacesList s.data).map (fun l => String.mk l)

/-- `FullCommandArgs::args`: returns arguments including the command
name.  The `String` variant is split on spaces; the `Vec` variant is
returned as-is. -/
def FullCommandArgs.args : FullCommandArgs → List String
  | .str s => splitSpaces s
  | .vec a => a.1

/-- A configured process builder (`std::process::Command`): program name
plus remaining arguments. -/
structure Command where
  program : String
  cmdArgs : List String
deriving DecidableEq

/-- `FullCommandArgs::to_command`: `Command::new(&full_args[0])` followed
by `cmd.args(&full_args[1..])`.  The indexing `full_args[0]` is modelled
as a fallible head access, so that its totality is a theorem rather than
an assumption. -/
def FullCommandArgs.to_command (a : FullCommandArgs) : Option Command :=
  match a.args with
  | [] => none
  | p :: rest => some ⟨p, rest⟩

/-- `ConfigError` from `config.rs`: transparent wrapper of
`config::ConfigError` plus the two-sources error. -/
inductive ConfigError where
  | configReadError (msg : String)
  | ambiguousSource (p1 p2 : String)
deriving DecidableEq

/-- `UserSettings` (external collaborator): an opaque settings value
produced from the built configuration. -/
structure UserSettings where
  entries : List (String × String)
deriving DecidableEq

/-- The process environment and filesystem state consulted by
`config_path` and `read_config`: the `JJ_CONFIG` variable,
`dirs::config_dir()`, `dirs::home_dir()`, a path-existence predicate,
and the result of the external `config` crate build step for a chosen
config path (its failures surface as `config::ConfigError` messages). -/
structure ConfigEnv where
  jjConfig : Option String
  configDir : Option String
  homeDir : Option String
  pathExists : String → Bool
  build : Option String → Except String UserSettings

/-- The platform-specific candidate `config_dir()/jj/config.toml`,
filtered by existence, from `config_path`. -/
def platformConfigPath (env : ConfigEnv) : Option String :=
  (env.configDir.map (fun d => d ++ "/jj/config.toml")).filter env.pathExists

/-- The home candidate `home_dir()/.jjconfig.toml`, filtered by
existence, from `config_path`. -/
def homeConfigPath (env : ConfigEnv) : Option String :=
  (env.homeDir.map (fun d => d ++ "/.jjconfig.toml")).filter env.pathExists

/-- `config_path` from `config.rs`: if `JJ_CONFIG` is set its value is
returned directly; otherwise the two candidate files are consulted, both
existing is the `AmbiguousSource` error, and otherwise the platform
candidate takes precedence over the home candidate. -/
def config_path (env : ConfigEnv) : Except ConfigError (Option String) :=
  match env.jjConfig with
  | some p => .ok (some p)
  | none =>
    match platformConfigPath env, homeConfigPath env with
    | some x, some h => .error (.ambiguousSource x h)
    | _, _ => .ok ((platformConfigPath env).or (homeConfigPath env))

/-- `read_config` from `config.rs`: propagates the `config_path` error
via `?`, then builds the layered configuration; any failure of the build
step is wrapped as `ConfigReadError` (the `#[from]` conversion). -/
def read_config (env : ConfigEnv) : Except ConfigError UserSettings :=
  match config_path env with
  | .error e => .error e
  | .ok cp =>
    match env.build cp with
    | .error msg => .error (.configReadError msg)
    | .ok s => .ok s

/-! ## Line-oriented diff

Modelled from the spec: the implementation of the diff/status generator
and conflict materializer is not under `src/`; §4.4 and §4.5 of the spec
describe a line-oriented minimal-edit diff with `-`/`+` marks for
changed runs and unmarked lines for unchanged runs. -/

/-- A single line-level edit: an unchanged line, a deleted line, or an
inserted line. -/
inductive DiffOp where
  | keep (s : String)
  | del (s : String)
  | ins (s : String)
deriving DecidableEq

/-- Modelled from the spec: minimal-edit line diff (§4.5 "a minimal-edit
diff, not a full unified diff").  Equal heads are kept; otherwise the
shorter of delete-first and insert-first is chosen, preferring the
deletion on ties so removed lines precede added ones.  Structural
recursion on a fuel counter: every recursive call shrinks the combined
input length by one, so `diffOps` supplies fuel that cannot run out. -/
def diffOpsFuel : Nat → List String → List String → List DiffOp
  | 0, _, _ => []
  | _ + 1, [], ys => ys.map DiffOp.ins
  | fuel + 1, x :: xs, [] => DiffOp.del x :: diffOpsFuel fuel xs []
  | fuel + 1, x :: xs, y :: ys =>
    if x = y then DiffOp.keep x :: diffOpsFuel fuel xs ys
    else
      let d1 := DiffOp.del x :: diffOpsFuel fuel xs (y :: ys)
      let d2 := DiffOp.ins y :: diffOpsFuel fuel (x :: xs) ys
      if d1.length ≤ d2.length then d1 else d2

/-- The minimal-edit line diff of two line lists. -/
def diffOps (xs ys : List String) : List DiffOp :=
  diffOpsFuel (xs.length + ys.length + 1) xs ys

/-! ## Conflict model and materialization (§3, §4.5) -/

/-- File content as a list of lines. -/
abbrev Content := List String

/-- Modelled from the spec: `ConflictState` (§3) — an ordered list of
terms alternating polarity, starting and ending positive; equivalently
`k` positive terms `P1..Pk` and `k-1` negative terms `N1..N(k-1)`
with the invariant `#positive = #negative + 1`. -/
structure ConflictState where
  positives : List Content
  negatives : List Content
  alternation : positives.length = negatives.length + 1
deriving DecidableEq

/-- A three-term conflict `P1, N1, P2` (two positive, one negative). -/
def mkConflict3 (p1 n1 p2 : Content) : ConflictState :=
  ⟨[p1, p2], [n1], rfl⟩

/-- Rendering of one diff edit inside a `%%%%%%%` section: deletions are
prefixed `-`, insertions `+`, unchanged lines appear verbatim. -/
def conflictDiffLine : DiffOp → String
  | .keep s => s
  | .del s => "-" ++ s
  | .ins s => "+" ++ s

/-- Modelled from the spec (§4.5 materialize, resolved against the §8
three-term scenario and `tests/test_print_command.rs`): emit `<<<<<<<`,
then for each adjacent pair `(N_i, P_{i+1})` a `%%%%%%%` section holding
the line diff of `N_i` against `P_{i+1}`, then a `+++++++` section with
the first positive term's content verbatim, then `>>>>>>>`.  (§4.5's
phrase "last positive term" disagrees with §8's "first positive term";
the latter matches the test snapshot and is used here.) -/
def materialize (c : ConflictState) : List String :=
  ["<<<<<<<"] ++
    ((c.negatives.zip (c.positives.drop 1)).flatMap
      (fun np => "%%%%%%%" :: (diffOps np.1 np.2).map conflictDiffLine)) ++
    ["+++++++"] ++ c.positives.headD [] ++ [">>>>>>>"]

/-! ## Trees, commits and the commit graph (§3)

Modelled from the spec: the object store and commit data model are
external to `src/`; §3 describes immutable commits with parent
identifier lists and file-tree snapshots. -/

/-- A path inside a tree, as a flat string with `/` separators. -/
abbrev TreePath := String

/-- A tree entry value: plain file content, or an unresolved conflict. -/
inductive TreeValue where
  | file (lines : Content)
  | conflict (c : ConflictState)
deriving DecidableEq

/-- A file-tree snapshot: an association list from paths to values. -/
abbrev Tree := List (TreePath × TreeValue)

/-- The content a path contributes to diffs and printing: plain lines
for a file, the materialized marker text for a conflict. -/
def TreeValue.lines : TreeValue → Content
  | .file ls => ls
  | .conflict c => materialize c

/-- Look up the value stored at an exact path. -/
def treeGet (t : Tree) (p : TreePath) : Option TreeValue :=
  (t.find? (fun e => e.1 = p)).map (fun e => e.2)

/-- Result of resolving a `print` path against a tree: a file-like
entry, a directory (some entry lives strictly below the path), or
nothing. -/
inductive PathLookup where
  | file (v : TreeValue)
  | dir
  | notFound
deriving DecidableEq

/-- Modelled from the spec: `print PATH` resolution — an exact entry is
a file; a path that is a proper prefix (as a directory) of some entry
exists but is not a file; anything else is missing. -/
def lookupPath (t : Tree) (p : TreePath) : PathLookup :=
  match treeGet t p with
  | some v => .file v
  | none =>
    if t.any (fun e => (p ++ "/").data.isPrefixOf e.1.data) then .dir
    else .notFound

/-- Lexicographic-or-equal comparison on character lists, used for the
spec's "ordering is lexicographic by path" (§3, DiffEntry). -/
def charListLe : List Char → List Char → Bool
  | [], _ => true
  | _ :: _, [] => false
  | a :: as, b :: bs =>
    if a = b then charListLe as bs else decide (a < b)

/-- Insert a path into a list sorted by `charListLe`. -/
def insertPathSorted (x : TreePath) : List TreePath → List TreePath
  | [] => [x]
  | y :: ys =>
    if charListLe x.data y.data then x :: y :: ys else y :: insertPathSorted x ys

/-- Sort paths lexicographically. -/
def sortPaths (l : List TreePath) : List TreePath :=
  l.foldr insertPathSorted []

/-- Drop adjacent duplicates from a sorted list of paths. -/
def dedupSorted : List TreePath → List TreePath
  | [] => []
  | [x] => [x]
  | x :: y :: rest =>
    if x = y then dedupSorted (y :: rest) else x :: dedupSorted (y :: rest)

/-- Per-path change status between two trees (§3 DiffEntry). -/
inductive ChangeStatus where
  | added
  | modified
  | removed
deriving DecidableEq

/-- Modelled from the spec (§4.4): the ordered list of per-path changes
between two tree snapshots, lexicographic by path. -/
def treeDiff (old new : Tree) : List (TreePath × ChangeStatus) :=
  let paths := dedupSorted (sortPaths (old.map Prod.fst ++ new.map Prod.fst))
  paths.filterMap (fun p =>
    match treeGet old p, treeGet new p with
    | none, some _ => some (p, .added)
    | some a, some b => if a = b then none else some (p, .modified)
    | some _, none => some (p, .removed)
    | none, none => none)

/-- An immutable commit (§3): identifier, parent identifiers,
description text, and its file-tree snapshot.  (Change identifiers and
signatures are irrelevant to the claims and omitted.) -/
structure Commit where
  id : Nat
  parents : List Nat
  description : String
  tree : Tree
deriving DecidableEq

/-- A loaded, immutable snapshot of the commit graph for one invocation
(§5): commits in creation order (parents always precede children, §3),
plus the working-copy commit identifier supplied by the settings
provider (§6). -/
structure Repo where
  commits : List Commit
  wc : Nat

/-- Look a commit up by identifier. -/
def findCommit (repo : Repo) (cid : Nat) : Option Commit :=
  repo.commits.find? (fun c => c.id = cid)

/-- The trees this commit is diffed against: each parent's tree, or the
empty tree for a parentless (root) commit (§4.4). -/
def parentTrees (repo : Repo) (c : Commit) : List Tree :=
  match c.parents with
  | [] => [[]]
  | ps => ps.map (fun pid => ((findCommit repo pid).map Commit.tree).getD [])

/-- The diff shown for a commit: against its first parent (§4.4
"default: first parent"). -/
def commitDiff (repo : Repo) (c : Commit) : List (TreePath × ChangeStatus) :=
  treeDiff ((parentTrees repo c).headD []) c.tree

/-- Modelled from the spec (§4.1 `file(pattern)`): whether a commit's
diff against some parent touches the given path. -/
def touchesPath (repo : Repo) (c : Commit) (p : TreePath) : Bool :=
  (parentTrees repo c).any (fun pt => (treeDiff pt c.tree).any (fun e => e.1 = p))

/-- The default revset order (§3): reverse-topological, children before
ancestors, recency first — the reverse of creation order. -/
def defaultRevset (repo : Repo) : List Commit :=
  repo.commits.reverse

/-! ## Template and diff-block rendering (§4.3, §4.4)

Modelled from the spec: only the `description` template is exercised by
the claims; an empty description renders as the placeholder text shown
for the implicit empty root. -/

/-- The `description` template value for a commit. -/
def showDescription (c : Commit) : String :=
  if c.description = "" then "(no description set)" else c.description

/-- Status letter for `-s` lines (§4.4 "one line per DiffEntry as
`<status-letter> <path>`"). -/
def statusLetter : ChangeStatus → String
  | .added => "A"
  | .modified => "M"
  | .removed => "R"

/-- A `-s` status line. -/
def statusLine (e : TreePath × ChangeStatus) : String :=
  statusLetter e.2 ++ " " ++ e.1

/-- Right-align a numeral in a field of the given width. -/
def leftPad (w : Nat) (s : String) : String :=
  String.mk (List.replicate (w - s.data.length) ' ') ++ s

/-- One content-mode hunk line (§4.4 "unified hunks with line numbers"):
old line number in a width-4 column, new line number in a width-5
column, then `: ` and the line text; an absent number renders as
spaces. -/
def hunkLine (o n : Option Nat) (text : String) : String :=
  (match o with
   | some k => leftPad 4 (toString k)
   | none => "    ") ++
  (match n with
   | some k => leftPad 5 (toString k)
   | none => "     ") ++ ": " ++ text

/-- Assign old/new line numbers to a list of diff edits. -/
def numberOps (o n : Nat) : List DiffOp → List String
  | [] => []
  | .keep s :: rest => hunkLine (some o) (some n) s :: numberOps (o + 1) (n + 1) rest
  | .del s :: rest => hunkLine (some o) none s :: numberOps (o + 1) n rest
  | .ins s :: rest => hunkLine none (some n) s :: numberOps o (n + 1) rest

/-- Header of a content-mode diff block for one changed path. -/
def blockHeader (st : ChangeStatus) (p : TreePath) : String :=
  (match st with
   | .added => "Added regular file "
   | .modified => "Modified regular file "
   | .removed => "Removed regular file ") ++ p ++ ":"

/-- Content of a path in a tree, empty when absent. -/
def treeLines (t : Tree) (p : TreePath) : Content :=
  ((treeGet t p).map TreeValue.lines).getD []

/-- The content-mode block for one diff entry (§4.4 content mode):
header line followed by numbered hunk lines. -/
def contentBlock (old new : Tree) (e : TreePath × ChangeStatus) : List String :=
  blockHeader e.2 e.1 ::
    numberOps 1 1 (diffOps (treeLines old e.1) (treeLines new e.1))

/-! ## Graph layout renderer (§4.2)

Modelled from the spec: one column suffices for the linear,
single-parent histories the claims exercise; the open-edge state
degenerates to whether the edge below a node reaches the next rendered
commit (`|`), was filtered out (`~` elision, §4.2 step 4), or does not
exist. -/

/-- The state of the column below a rendered node. -/
inductive EdgeKind where
  | noEdge
  | normal
  | elided
deriving DecidableEq

/-- The node row: `@` for the working-copy commit, `o` otherwise (§4.2
step 2), followed by the commit's template text. -/
def nodeLine (wc : Nat) (headline : Commit → String) (c : Commit) : String :=
  (if c.id = wc then "@" else "o") ++ " " ++ headline c

/-- Indent a commit's body block under its node (§4.3 "a sequence of
formatted lines per commit ... indented consistently under the node
glyph"): a normal open edge draws `| ` on every body line; an elided
edge draws `~ ` on the first continuation line (or on a line of its own
when there is no body) and blanks after; no edge draws blanks. -/
def bodyPrefixed : EdgeKind → List String → List String
  | .noEdge, [] => []
  | .normal, [] => []
  | .elided, [] => ["~ "]
  | .noEdge, ls => ls.map (fun l => "  " ++ l)
  | .normal, ls => ls.map (fun l => "| " ++ l)
  | .elided, b :: bs => ("~ " ++ b) :: bs.map (fun l => "  " ++ l)

/-- Edge below a node in default (children-first) order: it targets the
commit's parent, so it is normal when the next rendered commit is that
parent, elided when the parent was filtered out of the output set, and
absent for a parentless commit. -/
def edgeBelowFwd (c : Commit) (next : Option Commit) : EdgeKind :=
  if c.parents = [] then .noEdge
  else
    match next with
    | some n => if c.parents = [n.id] then .normal else .elided
    | none => .elided

/-- Render the graph for a sequence in default order (§4.2). -/
def renderGraphFwd (wc : Nat) (headline : Commit → String)
    (body : Commit → List String) : List Commit → List String
  | [] => []
  | c :: rest =>
    nodeLine wc headline c ::
      bodyPrefixed (edgeBelowFwd c rest.head?) (body c) ++
        renderGraphFwd wc headline body rest

/-- Render the graph for a sequence in `--reversed` (parents-first)
order: the edge below a node reaches the next rendered commit when that
commit lists it as a parent; nothing hangs below the newest commit. -/
def renderGraphRev (wc : Nat) (headline : Commit → String)
    (body : Commit → List String) : List Commit → List String
  | [] => []
  | c :: rest =>
    nodeLine wc headline c ::
      bodyPrefixed
        (match rest.head? with
         | some n => if n.parents = [c.id] then EdgeKind.normal else .elided
         | none => .noEdge)
        (body c) ++
        renderGraphRev wc headline body rest

/-! ## Command surface (§6)

Modelled from the spec: the `log`/`print` option surface of §6 and its
exit-code contract (0 success, 1 runtime error, 2 usage error).  Only
the options the claims exercise are modelled, and the only template
modelled is `description`. -/

/-- `pre.data.isPrefixOf s.data`: character-level `starts_with`. -/
def strStartsWith (s pre : String) : Bool :=
  pre.data.isPrefixOf s.data

/-- Character-level `ends_with`. -/
def strEndsWith (s suf : String) : Bool :=
  suf.data.isSuffixOf s.data

/-- Drop the first `n` characters. -/
def strDrop (n : Nat) (s : String) : String :=
  String.mk (s.data.drop n)

/-- Drop the last `n` characters. -/
def strDropRight (n : Nat) (s : String) : String :=
  String.mk ((s.data.reverse.drop n).reverse)

/-- The usage-error text for a `-r` with no value, from
`tests/test_log_command.rs`. -/
def missingRevisionsMsg : String :=
  "The argument '--revisions <REVISIONS>' requires a value but none was supplied"

/-- Parsed `log` options: `-r`, `-T`, `-p`, `-s`, `--git`,
`--no-graph`, `--reversed`, and positional path arguments. -/
structure ParsedLog where
  rOpt : Option String
  tmpl : Option String
  patch : Bool
  status : Bool
  gitFormat : Bool
  noGraph : Bool
  reversed : Bool
  paths : List String
deriving DecidableEq

/-- Option scanner for `log` arguments; accumulates into the fields of
`ParsedLog`, rejecting an option that requires a value but has none
(usage error, exit code 2 per §6). -/
def parseLogArgsGo (r tmpl : Option String) (p s g ng rev : Bool)
    (paths : List String) : List String → Except String ParsedLog
  | [] => .ok ⟨r, tmpl, p, s, g, ng, rev, paths.reverse⟩
  | "-r" :: v :: rest => parseLogArgsGo (some v) tmpl p s g ng rev paths rest
  | ["-r"] => .error missingRevisionsMsg
  | "-T" :: v :: rest => parseLogArgsGo r (some v) p s g ng rev paths rest
  | ["-T"] =>
    .error "The argument '--template <TEMPLATE>' requires a value but none was supplied"
  | "-p" :: rest => parseLogArgsGo r tmpl true s g ng rev paths rest
  | "-s" :: rest => parseLogArgsGo r tmpl p true g ng rev paths rest
  | "--git" :: rest => parseLogArgsGo r tmpl p s true ng rev paths rest
  | "--no-graph" :: rest => parseLogArgsGo r tmpl p s g true rev paths rest
  | "--reversed" :: rest => parseLogArgsGo r tmpl p s g ng true paths rest
  | arg :: rest =>
    if strStartsWith arg "-r=" then
      let v := strDrop 3 arg
      if v = "" then .error missingRevisionsMsg
      else parseLogArgsGo (some v) tmpl p s g ng rev paths rest
    else if strStartsWith arg "-r" then
      parseLogArgsGo (some (strDrop 2 arg)) tmpl p s g ng rev paths rest
    else if strStartsWith arg "-" then
      .error ("Found argument '" ++ arg ++ "' which wasn't expected")
    else parseLogArgsGo r tmpl p s g ng rev (arg :: paths) rest

/-- Parse the arguments of a `log` invocation. -/
def parseLogArgs : List String → Except String ParsedLog :=
  parseLogArgsGo none none false false false false false []

/-- Runtime (exit-code-1) failures reachable from the modelled surface
(§7 taxonomy). -/
inductive CmdError where
  | revisionNotFound (symbol : String)
deriving DecidableEq

/-- Diagnostic text of a runtime failure. -/
def cmdErrMsg : CmdError → String
  | .revisionNotFound s => "Revision \"" ++ s ++ "\" doesn't exist"

/-- Modelled from the spec (§4.1): revset evaluation for the expressions
the claims exercise — `@` is the working-copy commit and
`file(pattern)` filters the default revset to commits whose diff against
a parent touches the pattern; an unresolvable symbol is
`RevisionNotFound`. -/
def evalRevset (repo : Repo) (s : String) : Except CmdError (List Commit) :=
  if s = "@" then
    match findCommit repo repo.wc with
    | some c => .ok [c]
    | none => .error (.revisionNotFound s)
  else if strStartsWith s "file(" && strEndsWith s ")" then
    let p := strDropRight 1 (strDrop 5 s)
    .ok ((defaultRevset repo).filter (fun c => touchesPath repo c p))
  else .error (.revisionNotFound s)

/-- The commits a `log` invocation selects: the `-r` revset (default
revset when absent), restricted — when positional paths are present —
to commits touching one of those paths (§4.1, §4.4). -/
def logSelection (repo : Repo) (opts : ParsedLog) : Except CmdError (List Commit) :=
  match (match opts.rOpt with
         | none => Except.ok (defaultRevset repo)
         | some rs => evalRevset repo rs) with
  | .error e => .error e
  | .ok base =>
    .ok (if opts.paths = [] then base
         else base.filter (fun c => opts.paths.any (fun p => touchesPath repo c p)))

/-- The body block rendered under one commit: `-s` status lines, or
`-p`/`--git` content blocks, restricted to the positional paths when
given (§4.4); note it does not depend on the `-r` revset. -/
def bodyFor (repo : Repo) (opts : ParsedLog) (c : Commit) : List String :=
  let entries :=
    let es := commitDiff repo c
    if opts.paths = [] then es else es.filter (fun e => opts.paths.contains e.1)
  if opts.status then entries.map statusLine
  else if opts.patch || opts.gitFormat then
    entries.flatMap (contentBlock ((parentTrees repo c).headD []) c.tree)
  else []

/-- Render the selected commits: `--reversed` reverses the sequence;
`--no-graph` bypasses the graph renderer and emits only the text blocks
(§4.2). -/
def renderLogOutput (repo : Repo) (opts : ParsedLog) (sel : List Commit) : List String :=
  let seq := if opts.reversed then sel.reverse else sel
  if opts.noGraph then
    seq.flatMap (fun c => showDescription c :: bodyFor repo opts c)
  else if opts.reversed then
    renderGraphRev repo.wc showDescription (bodyFor repo opts) seq
  else
    renderGraphFwd repo.wc showDescription (bodyFor repo opts) seq

/-- The filesystem/heuristic context for the path-or-revset warning
(§7): whether an argument resolves as a real filesystem path, and
whether it looks revset-like. -/
structure Fs where
  resolves : String → Bool
  looksRevset : String → Bool

/-- The diagnostic-stream warning for a path argument that may have been
meant as a revset, from `tests/test_log_command.rs`. -/
def warnPathMsg (a : String) : String :=
  "warning: The argument \"" ++ a ++
    "\" is being interpreted as a path. To specify a revset, pass -r \"" ++
    a ++ "\" instead."

/-- Outcome of one command invocation: exit code, stdout lines, stderr
lines. -/
structure Outcome where
  exitCode : Nat
  stdout : List String
  stderr : List String
deriving DecidableEq

/-- Modelled from the spec (§7 local recovery): warn about each
positional path that does not resolve as a real filesystem path but
looks revset-like — unless an explicit `-r` was supplied, which
suppresses the warning entirely. -/
def logWarnings (fs : Fs) (opts : ParsedLog) : List String :=
  if opts.rOpt.isSome then []
  else (opts.paths.filter (fun a => !fs.resolves a && fs.looksRevset a)).map warnPathMsg

/-- The whole `log` command (§6): usage errors exit 2 with no output,
runtime errors exit 1 with a single `Error:` line, success exits 0 with
the rendered graph on stdout and any warnings on the diagnostic
stream. -/
def runLog (repo : Repo) (fs : Fs) (args : List String) : Outcome :=
  match parseLogArgs args with
  | .error msg =>
    ⟨2, [], ["error: " ++ msg, "", "For more information try '--help'"]⟩
  | .ok opts =>
    let warns := logWarnings fs opts
    match logSelection repo opts with
    | .error e => ⟨1, [], warns ++ ["Error: " ++ cmdErrMsg e]⟩
    | .ok sel => ⟨0, renderLogOutput repo opts sel, warns⟩

/-- Option scanner for `print` arguments: an optional `-r` and the
positional paths. -/
def parsePrintArgs (r : Option String) (paths : List String) :
    List String → Except String (Option String × List String)
  | [] => .ok (r, paths.reverse)
  | "-r" :: v :: rest => parsePrintArgs (some v) paths rest
  | ["-r"] => .error missingRevisionsMsg
  | arg :: rest =>
    if strStartsWith arg "-" then
      .error ("Found argument '" ++ arg ++ "' which wasn't expected")
    else parsePrintArgs r (arg :: paths) rest

/-- The whole `print PATH [-r REVSET]` command (§6): resolves the target
commit (working copy by default), then prints the file content at the
path — materialized marker text for a conflicted path (§4.5) — or fails
fatally with `No such path` / `Path exists but is not a file` (§7). -/
def runPrint (repo : Repo) (args : List String) : Outcome :=
  match parsePrintArgs none [] args with
  | .error msg =>
    ⟨2, [], ["error: " ++ msg, "", "For more information try '--help'"]⟩
  | .ok (rOpt, paths) =>
    match paths with
    | [p] =>
      match (match rOpt with
             | none => evalRevset repo "@"
             | some rs => evalRevset repo rs) with
      | .error e => ⟨1, [], ["Error: " ++ cmdErrMsg e]⟩
      | .ok sel =>
        match sel.head? with
        | none => ⟨1, [], ["Error: No revisions to print"]⟩
        | some c =>
          match lookupPath c.tree p with
          | .file v => ⟨0, v.lines, []⟩
          | .dir => ⟨1, [], ["Error: Path exists but is not a file"]⟩
          | .notFound => ⟨1, [], ["Error: No such path"]⟩
    | _ => ⟨2, [], ["error: print requires exactly one path"]⟩

/-! ## Concrete scenarios from the repository's tests -/

/-- The two-commit history of `test_log_with_or_without_diff`: root,
"add a file" (`file1` = "foo"), then the working copy "a new commit"
(`file1` = "foo","bar"). -/
def repoDiffScenario : Repo :=
  ⟨[⟨0, [], "", []⟩,
    ⟨1, [0], "add a file", [("file1", .file ["foo"])]⟩,
    ⟨2, [1], "a new commit", [("file1", .file ["foo", "bar"])]⟩], 2⟩

/-- The history of `test_log_filtered_by_path`: root, "first"
(adds `file1`), then the working copy "second" (modifies `file1`,
adds `file2`). -/
def repoFilterScenario : Repo :=
  ⟨[⟨0, [], "", []⟩,
    ⟨1, [0], "first", [("file1", .file ["foo"])]⟩,
    ⟨2, [1], "second",
      [("file1", .file ["foo", "bar"]), ("file2", .file ["baz"])]⟩], 2⟩

/-- The history of `test_log_warn_path_might_be_revset`: root and an
undescribed working-copy commit whose snapshot adds `file1`; no commit
anywhere touches `file2`. -/
def repoWarnScenario : Repo :=
  ⟨[⟨0, [], "", []⟩,
    ⟨1, [0], "", [("file1", .file ["foo"])]⟩], 1⟩

/-- The linear three-commit history of `test_log_reversed`. -/
def repoChainScenario : Repo :=
  ⟨[⟨0, [], "", []⟩,
    ⟨1, [0], "first", []⟩,
    ⟨2, [1], "second", []⟩], 2⟩

/-- The working-copy tree of `test_print`: `file1` plus a file inside a
subdirectory `dir`. -/
def repoPrintScenario : Repo :=
  ⟨[⟨0, [], "", [("dir/file2", .file ["c"]), ("file1", .file ["b"])]⟩], 0⟩

/-- The conflicted working copy at the end of `test_print`: `file1`
holds the three-term conflict whose first positive term is "c", whose
negative term is "b" and whose second positive term is "a". -/
def repoConflictScenario : Repo :=
  ⟨[⟨0, [], "", [("file1", .conflict (mkConflict3 ["c"] ["b"] ["a"]))]⟩], 0⟩

/-- A filesystem context in which every argument resolves as a real
path. -/
def fsAllResolve : Fs := ⟨fun _ => true, fun _ => true⟩

/-- The filesystem context of `test_log_warn_path_might_be_revset`:
only `file1` exists on disk, and every argument is revset-like. -/
def fsWarnScenario : Fs := ⟨fun a => a = "file1", fun _ => true⟩

/-! ## Theorems -/

/-- Splitting a character sequence on spaces always yields at least one
piece. -/
theorem splitSpacesList_ne_nil (l : List Char) : splitSpacesList l ≠ [] := by
  induction l with
  | nil => simp [splitSpacesList]
  | cons c cs ih =>
    unfold splitSpacesList
    by_cases h : c = ' '
    · simp [h]
    · simp only [if_neg h]
      cases hs : splitSpacesList cs <;> simp

/-- `FullCommandArgs.args` never returns the empty list. -/
theorem FullCommandArgs.args_ne_nil (a : FullCommandArgs) : a.args ≠ [] := by
  cases a with
  | str s =>
    simp only [FullCommandArgs.args, splitSpaces, ne_eq, List.map_eq_nil_iff]
    exact splitSpacesList_ne_nil s.data
  | vec v => exact v.2

/-- C9: for every `FullCommandArgs` value, `args()` returns a non-empty
list — splitting a string on spaces yields at least one element, and the
`Vec` variant is non-empty by construction of `NonEmptyCommandArgsVec`,
whose `TryFrom` rejects an empty vector — so `to_command`'s access of
the first element as the command name never fails. -/
theorem full_command_args_nonempty :
    (∀ a : FullCommandArgs, a.args ≠ [] ∧ a.to_command.isSome) ∧
      NonEmptyCommandArgsVec.tryFrom [] =
        .error "command arguments should not be empty" := by
  refine ⟨fun a => ⟨a.args_ne_nil, ?_⟩, rfl⟩
  unfold FullCommandArgs.to_command
  cases h : a.args with
  | nil => exact absurd h a.args_ne_nil
  | cons p rest => rfl

/-- Witness for C9 at the `config.rs` test inputs: both the
space-separated string and its vector form are accepted and non-empty. -/
theorem full_command_args_nonempty_witness :
    (FullCommandArgs.str "emacs -nw").args ≠ [] ∧
      (FullCommandArgs.str "emacs -nw").to_command.isSome :=
  full_command_args_nonempty.1 (.str "emacs -nw")

/-- `read_config` surfaces `AmbiguousSource` exactly when `config_path`
does: the build step only ever fails as `ConfigReadError`. -/
theorem aux_read_config_error_amb (env : ConfigEnv) (x h : String) :
    read_config env = .error (.ambiguousSource x h) ↔
      config_path env = .error (.ambiguousSource x h) := by
  unfold read_config
  cases hcp : config_path env with
  | error e => simp
  | ok cp => cases hb : env.build cp <;> simp [hb]

theorem aux_config_path_amb_iff (env : ConfigEnv) :
    (∃ x h, config_path env = .error (.ambiguousSource x h)) ↔
      (env.jjConfig = none ∧ platformConfigPath env ≠ none ∧
        homeConfigPath env ≠ none) := by
  unfold config_path
  cases hj : env.jjConfig with
  | some p => simp
  | none =>
    cases hp : platformConfigPath env with
    | none => simp
    | some xp =>
      cases hh : homeConfigPath env with
      | none => simp
      | some hv => simp

/-- C10: `read_config` returns the `AmbiguousSource` error if and only
if `JJ_CONFIG` is unset and both the platform-specific config file
(`config_dir/jj/config.toml`) and the home config file
(`~/.jjconfig.toml`) exist; when `JJ_CONFIG` is set, its value is used
as the config path directly, with no existence check and no ambiguity
check. -/
theorem read_config_ambiguous_iff (env : ConfigEnv) :
    ((∃ x h, read_config env = .error (.ambiguousSource x h)) ↔
      (env.jjConfig = none ∧ platformConfigPath env ≠ none ∧
        homeConfigPath env ≠ none)) ∧
    (∀ v, env.jjConfig = some v → config_path env = .ok (some v)) := by
  constructor
  · constructor
    · rintro ⟨x, h, heq⟩
      exact (aux_config_path_amb_iff env).mp
        ⟨x, h, (aux_read_config_error_amb env x h).mp heq⟩
    · intro hyp
      obtain ⟨x, h, hcp⟩ := (aux_config_path_amb_iff env).mpr hyp
      exact ⟨x, h, (aux_read_config_error_amb env x h).mpr hcp⟩
  · intro v hv
    rw [config_path, hv]

/-- An environment in which `JJ_CONFIG` is unset and both candidate
config files exist. -/
def envAmbiguous : ConfigEnv :=
  ⟨none, some "/xdg", some "/home/u", fun _ => true, fun _ => .ok ⟨[]⟩⟩

/-- An environment in which `JJ_CONFIG` is set while neither candidate
file exists. -/
def envDirect : ConfigEnv :=
  ⟨some "/custom/cfg.toml", some "/xdg", some "/home/u", fun _ => false,
    fun _ => .ok ⟨[]⟩⟩

/-- Witness for C10: with both files present and `JJ_CONFIG` unset the
error fires, and with `JJ_CONFIG` set the variable's value is taken
verbatim even though no file exists. -/
theorem read_config_ambiguous_iff_witness :
    (∃ x h, read_config envAmbiguous = .error (.ambiguousSource x h)) ∧
      config_path envDirect = .ok (some "/custom/cfg.toml") :=
  ⟨(read_config_ambiguous_iff envAmbiguous).1.mpr
      ⟨rfl, by decide, by decide⟩,
    (read_config_ambiguous_iff envDirect).2 "/custom/cfg.toml" rfl⟩

/-- C1: printing a three-term conflict (two positive terms, one
negative) with `print` produces exactly one marker block: a `<<<<<<<`
line, a `%%%%%%%` section whose lines are the negative-vs-second-
positive diff prefixed `-`/`+`, a `+++++++` section containing the first
positive term's content, and a closing `>>>>>>>` line — and nothing
else on stdout. -/
theorem print_three_term_conflict (repo : Repo) (c : Commit)
    (path : TreePath) (p1 n1 p2 : Content)
    (hargs : parsePrintArgs none [] [path] = .ok (none, [path]))
    (hwc : findCommit repo repo.wc = some c)
    (hlook : lookupPath c.tree path = .file (.conflict (mkConflict3 p1 n1 p2))) :
    runPrint repo [path] =
      ⟨0, ["<<<<<<<", "%%%%%%%"] ++ (diffOps n1 p2).map conflictDiffLine ++
            ["+++++++"] ++ p1 ++ [">>>>>>>"], []⟩ := by
  unfold runPrint
  rw [hargs]
  simp [evalRevset, hwc, hlook, TreeValue.lines, materialize, mkConflict3]

/-- Witness for C1 at the `test_print` conflict (positive "c", negative
"b", positive "a"): the printed text is the exact test snapshot. -/
theorem print_three_term_conflict_witness :
    runPrint repoConflictScenario ["file1"] =
      ⟨0, ["<<<<<<<", "%%%%%%%"] ++ (diffOps ["b"] ["a"]).map conflictDiffLine ++
            ["+++++++"] ++ ["c"] ++ [">>>>>>>"], []⟩ :=
  print_three_term_conflict repoConflictScenario _ "file1" ["c"] ["b"] ["a"]
    rfl rfl rfl

/-- C6: in the two-commit scenario of `test_log_with_or_without_diff`,
`log -T description` outputs exactly three node lines top-to-bottom —
working-copy commit, first commit, implicit empty root — prefixed with
`@`/`o` glyphs; adding `-p` inserts a diff block with the correct
added/context lines under each non-root entry; `--no-graph` strips the
glyphs and indentation. -/
theorem log_with_or_without_diff_scenario :
    runLog repoDiffScenario fsAllResolve ["-T", "description"] =
      ⟨0, ["@ a new commit", "o add a file", "o (no description set)"], []⟩ ∧
    runLog repoDiffScenario fsAllResolve ["-T", "description", "-p"] =
      ⟨0, ["@ a new commit",
           "| Modified regular file file1:",
           "|    1    1: foo",
           "|         2: bar",
           "o add a file",
           "| Added regular file file1:",
           "|         1: foo",
           "o (no description set)"], []⟩ ∧
    runLog repoDiffScenario fsAllResolve ["-T", "description", "--no-graph"] =
      ⟨0, ["a new commit", "add a file", "(no description set)"], []⟩ :=
  ⟨rfl, rfl, rfl⟩

/-- C7: invoking `log` with `-r=` (an option that requires a value but
got none) is a CLI usage error for every repository state: exit code 2,
an error message naming `--revisions <REVISIONS>`, and no log output. -/
theorem log_empty_revision_usage_error (repo : Repo) (fs : Fs) :
    runLog repo fs ["-r="] =
      ⟨2, [],
        ["error: The argument '--revisions <REVISIONS>' requires a value but none was supplied",
         "", "For more information try '--help'"]⟩ := rfl

/-- C8: `print` on a path absent from the target tree fails with exit
code 1 and the single diagnostic line `Error: No such path`, and `print`
on a path that exists only as a directory fails with exit code 1 and the
single diagnostic line `Error: Path exists but is not a file`; in both
cases stdout is empty. -/
theorem print_missing_path_errors (repo : Repo) (c : Commit)
    (path : TreePath)
    (hargs : parsePrintArgs none [] [path] = .ok (none, [path]))
    (hwc : findCommit repo repo.wc = some c) :
    (lookupPath c.tree path = .notFound →
      runPrint repo [path] = ⟨1, [], ["Error: No such path"]⟩) ∧
    (lookupPath c.tree path = .dir →
      runPrint repo [path] = ⟨1, [], ["Error: Path exists but is not a file"]⟩) := by
  constructor <;>
    · intro hlook
      unfold runPrint
      rw [hargs]
      simp [evalRevset, hwc, hlook]

/-- Witness for C8 at the `test_print` tree: `nonexistent` is missing
and `dir` exists only as a directory. -/
theorem print_missing_path_errors_witness :
    runPrint repoPrintScenario ["nonexistent"] =
        ⟨1, [], ["Error: No such path"]⟩ ∧
      runPrint repoPrintScenario ["dir"] =
        ⟨1, [], ["Error: Path exists but is not a file"]⟩ :=
  ⟨(print_missing_path_errors repoPrintScenario _ "nonexistent" rfl rfl).1 rfl,
    (print_missing_path_errors repoPrintScenario _ "dir" rfl rfl).2 rfl⟩

/-- Counterexample to C2: in the `test_log_warn_path_might_be_revset`
history no commit at all touches `file2`, and `log file2` then prints
nothing — not a working-copy node line followed by an elision marker as
the claim states. -/
theorem log_unmatched_path_counterexample :
    (repoWarnScenario.commits.all
        (fun c => !touchesPath repoWarnScenario c "file2")) = true ∧
      (runLog repoWarnScenario fsWarnScenario
          ["file2", "-T", "description"]).stdout = [] ∧
      (runLog repoWarnScenario fsWarnScenario
          ["file2", "-T", "description"]).stdout ≠
        ["@ (no description set)", "~ "] := by
  refine ⟨rfl, rfl, ?_⟩
  decide

/-- Reduction of `runLog` on a successful parse and selection. -/
theorem aux_runLog_ok (repo : Repo) (fs : Fs) (args : List String)
    (opts : ParsedLog) (sel : List Commit)
    (hargs : parseLogArgs args = .ok opts)
    (hsel : logSelection repo opts = .ok sel) :
    runLog repo fs args =
      ⟨0, renderLogOutput repo opts sel, logWarnings fs opts⟩ := by
  unfold runLog
  simp only [hargs, hsel]

/-- C2 (amended): filtering `log` by a path that the working-copy commit
touches while no other selected commit does yields exactly the
working-copy node line followed by a lone elision-marker line; when no
commit at all touches the path, the output is empty. -/
theorem log_path_filter_elision :
    (∀ (repo : Repo) (fs : Fs) (path : String) (wcC : Commit),
      parseLogArgs [path, "-T", "description"] =
        .ok ⟨none, some "description", false, false, false, false, false,
          [path]⟩ →
      (defaultRevset repo).filter (fun c => touchesPath repo c path) = [wcC] →
      wcC.id = repo.wc →
      wcC.parents ≠ [] →
      (runLog repo fs [path, "-T", "description"]).exitCode = 0 ∧
        (runLog repo fs [path, "-T", "description"]).stdout =
          ["@ " ++ showDescription wcC, "~ "]) ∧
    (∀ (repo : Repo) (fs : Fs) (path : String),
      parseLogArgs [path, "-T", "description"] =
        .ok ⟨none, some "description", false, false, false, false, false,
          [path]⟩ →
      (defaultRevset repo).filter (fun c => touchesPath repo c path) = [] →
      (runLog repo fs [path, "-T", "description"]).stdout = []) := by
  constructor
  · intro repo fs path wcC hargs hfilter hid hpar
    have hsel : logSelection repo
        ⟨none, some "description", false, false, false, false, false,
          [path]⟩ = .ok [wcC] := by
      unfold logSelection
      simp only [List.any_cons, List.any_nil, Bool.or_false]
      simp [hfilter]
    rw [aux_runLog_ok repo fs [path, "-T", "description"] _ [wcC] hargs hsel]
    refine ⟨rfl, ?_⟩
    simp [renderLogOutput, renderGraphFwd, nodeLine, edgeBelowFwd, hid,
      hpar, bodyPrefixed, bodyFor]
  · intro repo fs path hargs hfilter
    have hsel : logSelection repo
        ⟨none, some "description", false, false, false, false, false,
          [path]⟩ = .ok [] := by
      unfold logSelection
      simp only [List.any_cons, List.any_nil, Bool.or_false]
      simp [hfilter]
    rw [aux_runLog_ok repo fs [path, "-T", "description"] _ [] hargs hsel]
    rfl

/-- Witness for the amended C2 at `test_log_filtered_by_path`: `file2`
is touched only by the working-copy commit "second", and `log file2`
prints its node line and a lone `~ ` line. -/
theorem log_path_filter_elision_witness :
    (runLog repoFilterScenario fsAllResolve
        ["file2", "-T", "description"]).exitCode = 0 ∧
      (runLog repoFilterScenario fsAllResolve
          ["file2", "-T", "description"]).stdout =
        ["@ " ++
            showDescription
              ⟨2, [1], "second",
                [("file1", .file ["foo", "bar"]), ("file2", .file ["baz"])]⟩,
          "~ "] :=
  log_path_filter_elision.1 repoFilterScenario fsAllResolve "file2" _
    rfl rfl rfl (by decide)

/-- C3: a `file(pattern)` revset filter only changes which commits are
selected — the body block (e.g. `-s` status lines) rendered for a
selected commit never depends on the `-r` expression — unlike a
positional path argument, which also restricts each commit's displayed
diff, as the two `test_log_filtered_by_path` invocations show
concretely. -/
theorem file_revset_filter_preserves_diff :
    (∀ (repo : Repo) (opts : ParsedLog) (c : Commit),
      bodyFor repo opts c =
        bodyFor repo
          ⟨none, opts.tmpl, opts.patch, opts.status, opts.gitFormat,
            opts.noGraph, opts.reversed, opts.paths⟩ c) ∧
    runLog repoFilterScenario fsAllResolve
        ["-T", "description", "-s", "-rfile(file2)", "--no-graph"] =
      ⟨0, ["second", "M file1", "A file2"], []⟩ ∧
    runLog repoFilterScenario fsAllResolve
        ["-T", "description", "-s", "file2", "--no-graph"] =
      ⟨0, ["second", "A file2"], []⟩ := by
  refine ⟨?_, rfl, rfl⟩
  intro repo opts c
  cases opts
  rfl

/-- C4: a `log` path argument that does not resolve to a real
filesystem path but looks revset-like is not an error — the command
exits 0, emits the warning on the diagnostic stream, and proceeds
treating the argument as a path (the stdout is the path-filtered
render, possibly empty); when an explicit `-r` revset was supplied the
warning is suppressed entirely. -/
theorem log_path_might_be_revset_warning (repo : Repo) (fs : Fs)
    (args : List String) (opts : ParsedLog) (path : String)
    (hargs : parseLogArgs args = .ok opts)
    (hpaths : opts.paths = [path])
    (hres : fs.resolves path = false)
    (hrev : fs.looksRevset path = true) :
    (opts.rOpt = none →
      runLog repo fs args =
        ⟨0,
          renderLogOutput repo opts
            ((defaultRevset repo).filter (fun c => touchesPath repo c path)),
          [warnPathMsg path]⟩) ∧
    (∀ r sel, opts.rOpt = some r → logSelection repo opts = .ok sel →
      (runLog repo fs args).stderr = []) := by
  constructor
  · intro hr
    have hsel : logSelection repo opts =
        .ok ((defaultRevset repo).filter (fun c => touchesPath repo c path)) := by
      unfold logSelection
      rw [hr, hpaths]
      simp
    have hw : logWarnings fs opts = [warnPathMsg path] := by
      unfold logWarnings
      rw [hr, hpaths]
      simp [hres, hrev]
    rw [aux_runLog_ok repo fs args opts _ hargs hsel, hw]
  · intro r sel hr hsel
    rw [aux_runLog_ok repo fs args opts sel hargs hsel]
    unfold logWarnings
    rw [hr]
    rfl

/-- Witness for C4 at `test_log_warn_path_might_be_revset`: `file2`
exists nowhere on disk, `log file2` exits 0 with the warning and an
empty (path-filtered) render, and `log @ -r @` emits no warning. -/
theorem log_path_might_be_revset_warning_witness :
    (runLog repoWarnScenario fsWarnScenario ["file2", "-T", "description"] =
      ⟨0,
        renderLogOutput repoWarnScenario
          ⟨none, some "description", false, false, false, false, false,
            ["file2"]⟩
          ((defaultRevset repoWarnScenario).filter
            (fun c => touchesPath repoWarnScenario c "file2")),
        [warnPathMsg "file2"]⟩) ∧
    (runLog repoWarnScenario fsWarnScenario
        ["@", "-r", "@", "-T", "description"]).stderr = [] :=
  ⟨(log_path_might_be_revset_warning repoWarnScenario fsWarnScenario
      ["file2", "-T", "description"] _ "file2" rfl rfl rfl rfl).1 rfl,
    (log_path_might_be_revset_warning repoWarnScenario fsWarnScenario
      ["@", "-r", "@", "-T", "description"] _ "@" rfl rfl rfl rfl).2
      "@" _ rfl rfl⟩

/-- Whether `rest` continues a linear chain whose previous commit is
`h`: each commit's parent list is exactly the commit before it. -/
def isChainFromB : Commit → List Commit → Bool
  | _, [] => true
  | h, c :: rest => decide (c.parents = [h.id]) && isChainFromB c rest

/-- Whether a creation-ordered commit list is a linear (non-merge)
history: the first commit is the parentless root and every later commit
has exactly the previous commit as its only parent. -/
def isLinearChainB : List Commit → Bool
  | [] => true
  | c :: rest => decide (c.parents = []) && isChainFromB c rest

/-- Whether a sequence is fully connected in default (children-first)
render order: each commit's parent list is exactly the next commit, and
the last commit is parentless. -/
def isFwdOkB : List Commit → Bool
  | [] => true
  | [c] => decide (c.parents = [])
  | c :: n :: rest => decide (c.parents = [n.id]) && isFwdOkB (n :: rest)

/-- On a fully connected children-first sequence with empty bodies, the
graph renderer emits exactly one node line per commit: no elision and no
continuation rows appear. -/
theorem aux_renderGraphFwd_eq_map (wc : Nat) (hl : Commit → String)
    (body : Commit → List String) (hbody : ∀ c, body c = []) :
    ∀ L : List Commit, isFwdOkB L = true →
      renderGraphFwd wc hl body L = L.map (nodeLine wc hl) := by
  intro L
  induction L with
  | nil => intro _; rfl
  | cons c rest ih =>
    intro hok
    cases rest with
    | nil =>
      have hp : c.parents = [] := by simpa [isFwdOkB] using hok
      simp [renderGraphFwd, bodyPrefixed, edgeBelowFwd, hp, hbody]
    | cons n rest2 =>
      rw [isFwdOkB] at hok
      simp only [Bool.and_eq_true, decide_eq_true_eq] at hok
      have hne : c.parents ≠ [] := by rw [hok.1]; simp
      have step : renderGraphFwd wc hl body (c :: n :: rest2) =
          nodeLine wc hl c ::
            (bodyPrefixed (edgeBelowFwd c (some n)) (body c) ++
              renderGraphFwd wc hl body (n :: rest2)) := rfl
      rw [step, ih hok.2]
      simp [edgeBelowFwd, hne, hok.1, hbody, bodyPrefixed]

/-- On a chain rendered in parents-first order with empty bodies, the
reversed-mode renderer also emits exactly one node line per commit. -/
theorem aux_renderGraphRev_eq_map (wc : Nat) (hl : Commit → String)
    (body : Commit → List String) (hbody : ∀ c, body c = []) :
    ∀ (L : List Commit) (h : Commit), isChainFromB h L = true →
      renderGraphRev wc hl body (h :: L) = (h :: L).map (nodeLine wc hl) := by
  intro L
  induction L with
  | nil =>
    intro h _
    simp [renderGraphRev, bodyPrefixed, hbody]
  | cons c rest ih =>
    intro h hch
    rw [isChainFromB] at hch
    simp only [Bool.and_eq_true, decide_eq_true_eq] at hch
    have step : renderGraphRev wc hl body (h :: c :: rest) =
        nodeLine wc hl h ::
          (bodyPrefixed
            (if c.parents = [h.id] then EdgeKind.normal else .elided)
            (body h) ++
            renderGraphRev wc hl body (c :: rest)) := rfl
    rw [step, ih c hch.2]
    simp [hch.1, hbody, bodyPrefixed]

/-- Pushing a chain's reversal onto an already connected suffix keeps
the sequence connected in default render order. -/
theorem aux_isFwdOkB_append :
    ∀ (rest : List Commit) (h : Commit) (X : List Commit),
      isChainFromB h rest = true → isFwdOkB (h :: X) = true →
      isFwdOkB (rest.reverse ++ h :: X) = true := by
  intro rest
  induction rest with
  | nil => intro h X _ hX; simpa using hX
  | cons c rest2 ih =>
    intro h X hch hX
    rw [isChainFromB] at hch
    simp only [Bool.and_eq_true, decide_eq_true_eq] at hch
    have hcons : isFwdOkB (c :: h :: X) = true := by
      rw [isFwdOkB]
      simp [hch.1, hX]
    have := ih c (h :: X) hch.2 hcons
    simpa [List.reverse_cons, List.append_assoc] using this

/-- The reverse of a linear chain is fully connected in default render
order. -/
theorem aux_isFwdOkB_reverse (L : List Commit)
    (hlin : isLinearChainB L = true) : isFwdOkB L.reverse = true := by
  cases L with
  | nil => rfl
  | cons c rest =>
    rw [isLinearChainB] at hlin
    simp only [Bool.and_eq_true, decide_eq_true_eq] at hlin
    have hone : isFwdOkB (c :: ([] : List Commit)) = true := by
      simp [isFwdOkB, hlin.1]
    simpa [List.reverse_cons] using
      aux_isFwdOkB_append rest c [] hlin.2 hone

/-- Binding a singleton-producing function is mapping it. -/
theorem aux_flatMap_singleton (f : Commit → String) (L : List Commit) :
    (L.flatMap (fun c => [f c])) = L.map f := by
  induction L with
  | nil => rfl
  | cons c rest ih => simp [ih]

/-- `log -T description` in default order renders the graph of the
default revset with empty bodies. -/
theorem aux_runLog_desc_default (repo : Repo) (fs : Fs) :
    runLog repo fs ["-T", "description"] =
      ⟨0, renderGraphFwd repo.wc showDescription (fun _ => [])
            (defaultRevset repo), []⟩ := rfl

/-- `log -T description --reversed` renders the reversed sequence with
the reversed-mode renderer. -/
theorem aux_runLog_desc_reversed (repo : Repo) (fs : Fs) :
    runLog repo fs ["-T", "description", "--reversed"] =
      ⟨0, renderGraphRev repo.wc showDescription (fun _ => [])
            ((defaultRevset repo).reverse), []⟩ := rfl

/-- `log -T description --no-graph` emits one description line per
commit of the default revset. -/
theorem aux_runLog_desc_ng (repo : Repo) (fs : Fs) :
    runLog repo fs ["-T", "description", "--no-graph"] =
      ⟨0, (defaultRevset repo).flatMap (fun c => [showDescription c]),
        []⟩ := rfl

/-- `log -T description --reversed --no-graph` emits the same lines for
the reversed sequence. -/
theorem aux_runLog_desc_ng_reversed (repo : Repo) (fs : Fs) :
    runLog repo fs ["-T", "description", "--reversed", "--no-graph"] =
      ⟨0, ((defaultRevset repo).reverse).flatMap
            (fun c => [showDescription c]), []⟩ := rfl

/-- C5: for every linear (non-merge) history, the output lines of
`log --reversed` are the exact reverse of the output lines of `log` in
default order, both with the graph and with `--no-graph`. -/
theorem log_reversed_is_reverse (repo : Repo) (fs : Fs)
    (hlin : isLinearChainB repo.commits = true) :
    (runLog repo fs ["-T", "description", "--reversed"]).stdout =
      (runLog repo fs ["-T", "description"]).stdout.reverse ∧
    (runLog repo fs ["-T", "description", "--reversed", "--no-graph"]).stdout =
      (runLog repo fs ["-T", "description", "--no-graph"]).stdout.reverse := by
  constructor
  · rw [aux_runLog_desc_reversed, aux_runLog_desc_default]
    have hrev : (defaultRevset repo).reverse = repo.commits := by
      simp [defaultRevset]
    rw [hrev]
    rw [aux_renderGraphFwd_eq_map repo.wc showDescription (fun _ => [])
      (fun _ => rfl) (defaultRevset repo)
      (by simpa [defaultRevset] using aux_isFwdOkB_reverse repo.commits hlin)]
    cases hc : repo.commits with
    | nil => simp [renderGraphRev, defaultRevset, hc]
    | cons c rest =>
      have hch : isChainFromB c rest = true := by
        rw [hc, isLinearChainB] at hlin
        simp only [Bool.and_eq_true] at hlin
        exact hlin.2
      rw [aux_renderGraphRev_eq_map repo.wc showDescription (fun _ => [])
        (fun _ => rfl) rest c hch]
      simp [defaultRevset, hc]
  · rw [aux_runLog_desc_ng_reversed, aux_runLog_desc_ng]
    rw [aux_flatMap_singleton, aux_flatMap_singleton]
    simp

/-- Witness for C5 at the `test_log_reversed` history. -/
theorem log_reversed_is_reverse_witness :
    (runLog repoChainScenario fsAllResolve
        ["-T", "description", "--reversed"]).stdout =
      (runLog repoChainScenario fsAllResolve
        ["-T", "description"]).stdout.reverse ∧
    (runLog repoChainScenario fsAllResolve
        ["-T", "description", "--reversed", "--no-graph"]).stdout =
      (runLog repoChainScenario fsAllResolve
        ["-T", "description", "--no-graph"]).stdout.reverse :=
  log_reversed_is_reverse repoChainScenario fsAllResolve rfl

end JJ
